import Mathlib

/-!
Shallow embedding of the asynchronous case-selection job engine of
elsa-data, `application/backend/src/business/services/jobs-service.ts`,
over the schema `application/backend/dbschema/job.esdl`.

Modelling conventions:
* Database uuids are modelled as `Nat` identifiers.
* EdgeDB multi links (`todoQueue`, `selectedSpecimens`) are sets of objects;
  `todoQueue` is modelled as a `List DatasetCase` (the `limit 1` claim picks the
  head, standing for EdgeDB's arbitrary-but-fixed choice; link-set distinctness
  of ids is carried as a `Nodup` hypothesis where counting matters) and
  `selectedSpecimens` as a `Finset Nat` of specimen ids, so that the `+=` link
  update is a set union.
* Timestamps are integral seconds (`Int`).
* A throwing async function is `Except String _` / `Except JobError _`; an
  EdgeDB transaction whose callback throws commits nothing, so an
  `Except.error` result carries no successor state — rollback is inherent to
  the embedding.
* The float literal 99.99 of the percentage computation is modelled exactly as
  the rational 9999/100, and `math::floor` on the (here exact) quotient as
  `Int.fdiv`; the modelled division yields 0 for `initialTodoCount = 0`, a
  corner only reachable from states the service itself never produces.
-/

namespace Elsa

/-- A biological specimen, `dataset::DatasetSpecimen`; identity is its uuid. -/
structure Specimen where
  id : Nat
deriving DecidableEq

/-- A patient, `dataset::DatasetPatient`, with its `specimens` multi link. -/
structure Patient where
  id : Nat
  specimens : List Specimen
deriving DecidableEq

/-- A case, `dataset::DatasetCase`, with its `patients` multi link. -/
structure DatasetCase where
  id : Nat
  patients : List Patient
deriving DecidableEq

/-- `job::JobStatus` enum of the schema. -/
inductive JobStatus where
  | running
  | succeeded
  | failed
  | cancelled
deriving DecidableEq

/-- `job::SelectJob` (with the abstract `job::Job` fields inlined).  The
`created` property has a database-side default and is touched by no operation
modelled here, so it is omitted. -/
structure SelectJob where
  forRelease : Nat
  status : JobStatus
  started : Option Int
  ended : Option Int
  requestedCancellation : Bool
  percentDone : Int
  messages : List String
  initialTodoCount : Nat
  todoQueue : List DatasetCase
  selectedSpecimens : Finset Nat
deriving DecidableEq

/-- The Eligibility Evaluator, the external collaborator
`selectService.isSelectable(applicationCoded, case, patient, specimen)`.
It may throw (`Except.error`).  The `applicationCoded` argument is read once
per `doSelectJobWork` invocation and fixed for the whole job, so it is
absorbed into the closure. -/
abbrev Sel : Type := DatasetCase → Patient → Specimen → Except String Bool

/-- Innermost loop of the batch transaction: evaluate every specimen of one
patient in order, collecting the ids judged selectable; a thrown evaluator
fault aborts the whole traversal. -/
def evalSpecimens (sel : Sel) (cas : DatasetCase) (pat : Patient) :
    List Specimen → Except String (List Nat)
  | [] => Except.ok []
  | spec :: rest =>
    match sel cas pat spec with
    | Except.error f => Except.error f
    | Except.ok b =>
      match evalSpecimens sel cas pat rest with
      | Except.error f => Except.error f
      | Except.ok ids => Except.ok (if b then spec.id :: ids else ids)

/-- Middle loop of the batch transaction: evaluate every patient of one case
in order. -/
def evalPatients (sel : Sel) (cas : DatasetCase) :
    List Patient → Except String (List Nat)
  | [] => Except.ok []
  | pat :: rest =>
    match evalSpecimens sel cas pat pat.specimens with
    | Except.error f => Except.error f
    | Except.ok ids1 =>
      match evalPatients sel cas rest with
      | Except.error f => Except.error f
      | Except.ok ids2 => Except.ok (ids1 ++ ids2)

/-- The `resultSpecimens` accumulation of one claimed case: the ids of all
specimens of all patients of the case that the evaluator judges selectable,
in traversal order. -/
def evalCase (sel : Sel) (cas : DatasetCase) : Except String (List Nat) :=
  evalPatients sel cas cas.patients

/-- One iteration of the `while` body of `doSelectJobWork`: the transaction
that claims at most one case (`limit: 1`) off `todoQueue`, evaluates it, and
commits.  Committed effects, exactly as in the source:
* if any specimen was selected, `selectedSpecimens += newResults` — here the
  conditional set union;
* if a case was claimed, `todoQueue -= doneCases` (removal by case id) and
  `percentDone := floor(((initialTodoCount - count(todoQueue) + batchLen) *
  99.99) / initialTodoCount)` where `count(todoQueue)` is the pre-update queue
  size and `batchLen = 1`;
* `messages` is NOT written: the source builds `resultMessages` but its
  append is commented out (`// TODO: make messages work`).
Returns the committed job state and the number of cases claimed. -/
def doSelectJobBatch (sel : Sel) (j : SelectJob) : Except String (SelectJob × Nat) :=
  match j.todoQueue with
  | [] => Except.ok (j, 0)
  | cas :: _ =>
    match evalCase sel cas with
    | Except.error f => Except.error f
    | Except.ok resultSpecimens =>
      let j1 :=
        if 0 < resultSpecimens.length then
          { j with selectedSpecimens := j.selectedSpecimens ∪ resultSpecimens.toFinset }
        else j
      Except.ok
        ({ j1 with
            todoQueue := j1.todoQueue.filter (fun c => c.id != cas.id)
            percentDone :=
              Int.fdiv
                (((j.initialTodoCount : Int) - (j.todoQueue.length : Int) + 1) * 9999)
                (100 * (j.initialTodoCount : Int)) },
          1)

/-- date-fns `differenceInSeconds(dateLeft, dateRight)`: the signed number of
whole seconds from `dateRight` to `dateLeft`.  With timestamps modelled as
integral seconds the truncation is exact. -/
def differenceInSeconds (dateLeft dateRight : Int) : Int := dateLeft - dateRight

/-- The `while` guard of `doSelectJobWork`, exactly as written in the source:
`differenceInSeconds(startTime, new Date()) < 10`.  Note the argument order
(`startTime` first) and the hard-coded `10`; the `roughlyMaxSeconds`
parameter does not appear in it. -/
def loopGuard (startTime now : Int) : Bool :=
  decide (differenceInSeconds startTime now < 10)

/-- The `while` loop of `doSelectJobWork`.  `clock n` is the wall-clock value
observed at the n-th guard check.  `fuel` bounds the number of iterations;
`doSelectJobWork` supplies `todoQueue.length + 1`, which is enough because a
batch that claims a case strictly shrinks the queue and the loop stops at the
first batch that claims zero cases. -/
def selectJobLoop (sel : Sel) (startTime : Int) (clock : Nat → Int) :
    Nat → SelectJob → Except String (SelectJob × Nat)
  | 0, j => Except.ok (j, 0)
  | fuel + 1, j =>
    if loopGuard startTime (clock 0) then
      match doSelectJobBatch sel j with
      | Except.error f => Except.error f
      | Except.ok (j1, c) =>
        if c = 0 then Except.ok (j1, 0)
        else
          match selectJobLoop sel startTime (fun n => clock (n + 1)) fuel j1 with
          | Except.error f => Except.error f
          | Except.ok (j2, restCount) => Except.ok (j2, c + restCount)
    else Except.ok (j, 0)

/-- `doSelectJobWork(jobId, roughlyMaxSeconds)` after its initial existence
check, operating on the job record.  The `roughlyMaxSeconds` parameter is
accepted and — exactly as in the source — never read. -/
def doSelectJobWork (sel : Sel) (roughlyMaxSeconds : Int) (j : SelectJob)
    (startTime : Int) (clock : Nat → Int) : Except String (SelectJob × Nat) :=
  selectJobLoop sel startTime clock (j.todoQueue.length + 1) j

/-- `release::Release`, reduced to the fields the job engine touches: its id
and its authoritative `selectedSpecimens` set. -/
structure Release where
  id : Nat
  selectedSpecimens : Finset Nat
deriving DecidableEq

/-- The durable store: the releases and the jobs (keyed by job uuid). -/
structure Db where
  releases : List Release
  jobs : List (Nat × SelectJob)
deriving DecidableEq

/-- The `Base7807Error` thrown by `startGenericJob`: "Only one running job is
allowed per release", whose detail string carries the id(s) of the running
job(s) found. -/
inductive JobError where
  | conflict (runningIds : List Nat)
deriving DecidableEq

/-- The `oldJob` query of `startGenericJob`: all jobs with `status = running`
whose `forRelease` is the given release. -/
def runningJobsForRelease (db : Db) (releaseId : Nat) : List (Nat × SelectJob) :=
  db.jobs.filter
    (fun p => decide (p.2.status = JobStatus.running ∧ p.2.forRelease = releaseId))

/-- `startGenericJob`: inside one transaction, check that no running job
exists for the release (throwing the conflict error carrying the found ids if
one does), then run the final job start step. -/
def startGenericJob (db : Db) (releaseId : Nat) (finalJobStartStep : Db → Db) :
    Except JobError Db :=
  let oldJob := runningJobsForRelease db releaseId
  if 0 < oldJob.length then
    Except.error (JobError.conflict (oldJob.map (fun p => p.1)))
  else
    Except.ok (finalJobStartStep db)

/-- `startSelectJob` after its authorisation check: via `startGenericJob`,
insert one new `job::SelectJob` for the release.  `catalog` is the Work
Catalog view (`releaseAllDatasetCasesQuery` built by `getReleaseInfo`): the
full case set of the release's datasets.  `requestedCancellation` takes the
schema default `false`. -/
def startSelectJob (catalog : Nat → List DatasetCase) (db : Db) (releaseId : Nat)
    (now : Int) (newJobId : Nat) : Except JobError Db :=
  startGenericJob db releaseId (fun db0 =>
    { db0 with
        jobs := db0.jobs ++ [(newJobId,
          { forRelease := releaseId
            status := JobStatus.running
            started := some now
            ended := none
            requestedCancellation := false
            percentDone := 0
            messages := ["Created"]
            initialTodoCount := (catalog releaseId).length
            todoQueue := catalog releaseId
            selectedSpecimens := ∅ })] })

/-- Point update of the job with the given id (an EdgeDB `update ... filter
.id = jobId`). -/
def updateJob (jobs : List (Nat × SelectJob)) (jobId : Nat)
    (f : SelectJob → SelectJob) : List (Nat × SelectJob) :=
  jobs.map (fun p => if p.1 = jobId then (p.1, f p.2) else p)

/-- Point update of the release with the given id. -/
def updateRelease (rels : List Release) (relId : Nat) (f : Release → Release) :
    List Release :=
  rels.map (fun r => if r.id = relId then f r else r)

/-- The `selectJobQuery ... assert_single` lookup of `endSelectJob`. -/
def findJob (db : Db) (jobId : Nat) : Option (Nat × SelectJob) :=
  db.jobs.find? (fun p => p.1 == jobId)

/-- `endSelectJob(jobId, wasSuccessful, isCancellation)`: one transaction
that (a) when not a cancellation and successful, writes the job's
`selectedSpecimens` onto the release — a plain `set` assignment in the
source, not a `+=` — and (b) marks the job terminal: `percentDone := 100`,
`ended := now`, `status := cancelled | succeeded | failed`.  The source's
`if (!selectJobQuery) throw` tests the query-builder object (always truthy),
so a missing job id simply updates nothing. -/
def endSelectJob (db : Db) (jobId : Nat) (wasSuccessful isCancellation : Bool)
    (now : Int) : Db :=
  match findJob db jobId with
  | none => db
  | some (_, job) =>
    let db1 :=
      if !isCancellation && wasSuccessful then
        { db with
            releases := updateRelease db.releases job.forRelease
              (fun r => { r with selectedSpecimens := job.selectedSpecimens }) }
      else db
    { db1 with
        jobs := updateJob db1.jobs jobId (fun sj =>
          { sj with
              percentDone := 100
              ended := some now
              status :=
                if isCancellation then JobStatus.cancelled
                else if wasSuccessful then JobStatus.succeeded
                else JobStatus.failed }) }

/-- The committed job record of a batch transaction that claimed the case
`cas` from the head of the queue and collected the selectable specimen ids
`ids` (queue length read pre-update, exactly as `e.count(sj.todoQueue)` in
the source update). -/
def batchResult (j : SelectJob) (cas : DatasetCase) (ids : List Nat) : SelectJob :=
  { j with
      selectedSpecimens :=
        if 0 < ids.length then j.selectedSpecimens ∪ ids.toFinset
        else j.selectedSpecimens
      todoQueue := j.todoQueue.filter (fun c => c.id != cas.id)
      percentDone :=
        Int.fdiv (((j.initialTodoCount : Int) - (j.todoQueue.length : Int) + 1) * 9999)
          (100 * (j.initialTodoCount : Int)) }

deriving instance DecidableEq for Except

/-- An evaluator that judges every specimen selectable. -/
def selTrue : Sel := fun _ _ _ => Except.ok true

/-- An evaluator that judges no specimen selectable (and never faults). -/
def selNone : Sel := fun _ _ _ => Except.ok false

/-- An evaluator that throws on every specimen. -/
def selFault : Sel := fun _ _ _ => Except.error "specimen fault"

/-- Concrete case 3: one patient 4 holding one specimen 5. -/
def casA : DatasetCase := { id := 3, patients := [{ id := 4, specimens := [{ id := 5 }] }] }

/-- Concrete case 7: one patient 8 holding one specimen 9. -/
def casB : DatasetCase := { id := 7, patients := [{ id := 8, specimens := [{ id := 9 }] }] }

/-- A freshly created running job over the single case `casA`. -/
def jobOne : SelectJob :=
  { forRelease := 1
    status := JobStatus.running
    started := some 0
    ended := none
    requestedCancellation := false
    percentDone := 0
    messages := ["Created"]
    initialTodoCount := 1
    todoQueue := [casA]
    selectedSpecimens := ∅ }

/-- The state of `jobOne` after its single batch under `selTrue`. -/
def jobOneAfter : SelectJob :=
  { jobOne with selectedSpecimens := {5}, todoQueue := [], percentDone := 99 }

/-- The state of `jobOne` after its single batch under `selNone`: the case is
consumed but nothing is selected. -/
def jobOneAfterNone : SelectJob :=
  { jobOne with todoQueue := [], percentDone := 99 }

/-- A freshly created running job over the two cases `casA`, `casB`. -/
def jobTwo : SelectJob :=
  { jobOne with initialTodoCount := 2, todoQueue := [casA, casB] }

/-- The state of `jobTwo` after `doSelectJobWork` drains its whole queue
under `selTrue`. -/
def jobTwoAfter : SelectJob :=
  { jobTwo with selectedSpecimens := {5, 9}, todoQueue := [], percentDone := 99 }

/-- Six remaining single-patient single-specimen cases of a ten-case job. -/
def casesMid : List DatasetCase :=
  [50, 60, 70, 80, 90, 100].map (fun n =>
    { id := n, patients := [{ id := n + 1, specimens := [{ id := n + 2 }] }] })

/-- A running ten-case job that has already processed four cases (queue holds
the remaining six), about to commit its fifth single-case batch. -/
def jobMid : SelectJob :=
  { jobOne with
      initialTodoCount := 10
      todoQueue := casesMid
      selectedSpecimens := {1, 2, 3, 4}
      percentDone := 39 }

/-- The state of `jobMid` after its fifth batch under `selTrue`. -/
def jobMidAfter : SelectJob :=
  { jobMid with
      selectedSpecimens := {1, 2, 3, 4, 52}
      todoQueue := casesMid.tail
      percentDone := 49 }

/-- A release that already holds specimen 1 as selected. -/
def relPrior : Release := { id := 1, selectedSpecimens := {1} }

/-- A running job for release 1 that has accumulated specimen 2. -/
def jobAcc : SelectJob :=
  { jobOne with todoQueue := [], percentDone := 99, selectedSpecimens := {2} }

/-- A store holding `relPrior` and the running job `jobAcc` under job id 10. -/
def dbAcc : Db := { releases := [relPrior], jobs := [(10, jobAcc)] }

/-- The release record produced by successfully finalizing job 10 in `dbAcc`. -/
def relReplaced : Release := { id := 1, selectedSpecimens := {2} }

/-- A store with one running job (id 11) for release 1 and no releases. -/
def dbRun : Db := { releases := [], jobs := [(11, jobOne)] }

/-- An empty store. -/
def dbEmpty : Db := { releases := [], jobs := [] }

/-- A Work Catalog giving release 1 the two cases `casA`, `casB`. -/
def catalogAB : Nat → List DatasetCase := fun _ => [casA, casB]


theorem doSelectJobBatch_nil (sel : Sel) (j : SelectJob) (hq : j.todoQueue = []) :
    doSelectJobBatch sel j = Except.ok (j, 0) := by
  unfold doSelectJobBatch
  rw [hq]

theorem doSelectJobBatch_cons (sel : Sel) (j : SelectJob) (cas : DatasetCase)
    (rest : List DatasetCase) (ids : List Nat)
    (hq : j.todoQueue = cas :: rest) (he : evalCase sel cas = Except.ok ids) :
    doSelectJobBatch sel j = Except.ok (batchResult j cas ids, 1) := by
  unfold doSelectJobBatch batchResult
  rw [hq]
  simp only [he]
  by_cases hlen : 0 < ids.length
  · simp [hlen, hq]
  · simp [hlen, hq]

theorem doSelectJobBatch_fault (sel : Sel) (j : SelectJob) (cas : DatasetCase)
    (rest : List DatasetCase) (f : String)
    (hq : j.todoQueue = cas :: rest) (he : evalCase sel cas = Except.error f) :
    doSelectJobBatch sel j = Except.error f := by
  unfold doSelectJobBatch
  rw [hq]
  simp only [he]

theorem filter_ne_head_eq (cas : DatasetCase) (rest : List DatasetCase)
    (hnd : ((cas :: rest).map DatasetCase.id).Nodup) :
    (cas :: rest).filter (fun c => c.id != cas.id) = rest := by
  have h1 : (∀ x ∈ rest, ¬ x.id = cas.id) ∧ (rest.map DatasetCase.id).Nodup := by
    simpa using hnd
  have h2 : (cas :: rest).filter (fun c => c.id != cas.id) =
      rest.filter (fun c => c.id != cas.id) := by
    simp [List.filter_cons]
  rw [h2]
  apply List.filter_eq_self.mpr
  intro c hc
  simpa using h1.1 c hc


/-- Claim C1: a batch commit of the select-job worker preserves the count
identity: if the number of cases already processed plus the queue size equals
`initialTodoCount` before the transaction, the same holds after it (the batch
claims `c` cases, removes exactly those from the queue and leaves
`initialTodoCount` untouched); moreover any case that left the queue had all
of its selectable specimens recorded in `selectedSpecimens` by the same
commit.  Queue ids are distinct (`hnd`), as for any EdgeDB link set. -/
theorem doSelectJobBatch_preserves_count_invariant (sel : Sel) (j j' : SelectJob)
    (c p : Nat)
    (hnd : (j.todoQueue.map DatasetCase.id).Nodup)
    (hinv : j.todoQueue.length + p = j.initialTodoCount)
    (hstep : doSelectJobBatch sel j = Except.ok (j', c)) :
    (j'.initialTodoCount = j.initialTodoCount ∧
      j'.todoQueue.length + (p + c) = j'.initialTodoCount) ∧
    (∀ cas, cas ∈ j.todoQueue → cas ∉ j'.todoQueue →
      ∃ ids, evalCase sel cas = Except.ok ids ∧
        ∀ s, s ∈ ids → s ∈ j'.selectedSpecimens) := by
  rcases hq : j.todoQueue with _ | ⟨cas, rest⟩
  · rw [doSelectJobBatch_nil sel j hq] at hstep
    simp only [Except.ok.injEq, Prod.mk.injEq] at hstep
    obtain ⟨hj, hc⟩ := hstep
    subst hj
    subst hc
    refine ⟨⟨rfl, ?_⟩, ?_⟩
    · simpa [hq] using hinv
    · intro cas hmem _
      simp at hmem
  · rcases he : evalCase sel cas with f | ids
    · rw [doSelectJobBatch_fault sel j cas rest f hq he] at hstep
      simp at hstep
    · rw [doSelectJobBatch_cons sel j cas rest ids hq he] at hstep
      simp only [Except.ok.injEq, Prod.mk.injEq] at hstep
      obtain ⟨hj, hc⟩ := hstep
      subst hj
      subst hc
      have hfil : j.todoQueue.filter (fun x => x.id != cas.id) = rest := by
        rw [hq]
        exact filter_ne_head_eq cas rest (hq ▸ hnd)
      constructor
      · refine ⟨rfl, ?_⟩
        simp only [batchResult, hfil]
        rw [hq] at hinv
        simp at hinv
        omega
      · intro cas' hmem hnot
        simp only [batchResult, hfil] at hnot
        rcases List.mem_cons.mp hmem with heq | hrest
        · subst heq
          refine ⟨ids, he, ?_⟩
          intro s hs
          have hlen : 0 < ids.length := List.length_pos_of_mem hs
          simp only [batchResult, if_pos hlen]
          exact Finset.mem_union_right _ (List.mem_toFinset.mpr hs)
        · exact absurd hrest hnot

/-- Witness for C1 at a concrete input: the one-case job `jobOne` with zero
cases already processed; its single batch under `selTrue` commits
`jobOneAfter` and the identity 0 + (0 + 1) = 1 holds. -/
theorem doSelectJobBatch_preserves_count_invariant_witness :
    ((jobOneAfter.initialTodoCount = jobOne.initialTodoCount ∧
        jobOneAfter.todoQueue.length + (0 + 1) = jobOneAfter.initialTodoCount) ∧
      (∀ cas, cas ∈ jobOne.todoQueue → cas ∉ jobOneAfter.todoQueue →
        ∃ ids, evalCase selTrue cas = Except.ok ids ∧
          ∀ s, s ∈ ids → s ∈ jobOneAfter.selectedSpecimens)) :=
  doSelectJobBatch_preserves_count_invariant selTrue jobOne jobOneAfter 1 0
    (by decide) (by decide) (by decide)


/-- Claim C4: the percentDone committed by a batch equals
floor(99.99 * casesProcessedAfterThisBatch / initialTodoCount) (modelled as
an exact-rational flooring division), and is strictly below 100 even when the
queue empties. -/
theorem doSelectJobBatch_percentDone (sel : Sel) (j j' : SelectJob) (c : Nat)
    (hnd : (j.todoQueue.map DatasetCase.id).Nodup)
    (hne : j.todoQueue ≠ [])
    (hle : j.todoQueue.length ≤ j.initialTodoCount)
    (hstep : doSelectJobBatch sel j = Except.ok (j', c)) :
    j'.percentDone =
      Int.fdiv (((j.initialTodoCount : Int) - (j'.todoQueue.length : Int)) * 9999)
        (100 * (j.initialTodoCount : Int)) ∧
    j'.percentDone < 100 := by
  rcases hq : j.todoQueue with _ | ⟨cas, rest⟩
  · exact absurd hq hne
  · rcases he : evalCase sel cas with f | ids
    · rw [doSelectJobBatch_fault sel j cas rest f hq he] at hstep
      simp at hstep
    · rw [doSelectJobBatch_cons sel j cas rest ids hq he] at hstep
      simp only [Except.ok.injEq, Prod.mk.injEq] at hstep
      obtain ⟨hj, _⟩ := hstep
      subst hj
      have hfil : j.todoQueue.filter (fun x => x.id != cas.id) = rest := by
        rw [hq]
        exact filter_ne_head_eq cas rest (hq ▸ hnd)
      have hlen : j.todoQueue.length = rest.length + 1 := by rw [hq]; simp
      have hleN : rest.length + 1 ≤ j.initialTodoCount := by
        rw [hq] at hle
        simpa using hle
      have heq : (batchResult j cas ids).percentDone =
          Int.fdiv (((j.initialTodoCount : Int) - (rest.length : Int)) * 9999)
            (100 * (j.initialTodoCount : Int)) := by
        simp only [batchResult, hlen]
        congr 1
        push_cast
        ring
      have hql : (batchResult j cas ids).todoQueue.length = rest.length := by
        simp only [batchResult, hfil]
      constructor
      · rw [heq, hql]
      · rw [heq]
        have hinit : (1 : Int) ≤ (j.initialTodoCount : Int) := by
          exact_mod_cast Nat.one_le_iff_ne_zero.mpr (by omega)
        have hrl : (0 : Int) ≤ (rest.length : Int) := Int.natCast_nonneg _
        have hP : ((j.initialTodoCount : Int) - (rest.length : Int)) ≤ (j.initialTodoCount : Int) := by
          omega
        have hPpos : (0 : Int) < ((j.initialTodoCount : Int) - (rest.length : Int)) := by
          have : (rest.length : Int) + 1 ≤ (j.initialTodoCount : Int) := by exact_mod_cast hleN
          omega
        have hdpos : (0 : Int) < 100 * (j.initialTodoCount : Int) := by omega
        rw [Int.fdiv_eq_ediv _ (le_of_lt hdpos)]
        rw [Int.ediv_lt_iff_lt_mul hdpos]
        nlinarith
  
/-- Witness for C4, the spec's own scenario: a ten-case job committing its
fifth single-case batch lands on percentDone = 49 (= floor(99.99 * 5 / 10)),
below 100. -/
theorem doSelectJobBatch_percentDone_witness :
    (jobMidAfter.percentDone =
        Int.fdiv (((jobMid.initialTodoCount : Int) - (jobMidAfter.todoQueue.length : Int)) * 9999)
          (100 * (jobMid.initialTodoCount : Int)) ∧
      jobMidAfter.percentDone < 100) ∧
    jobMidAfter.percentDone = 49 :=
  ⟨doSelectJobBatch_percentDone selTrue jobMid jobMidAfter 1
      (by decide) (by decide) (by decide) (by decide),
    by decide⟩

/-- Claim C7 (code bug in the source): a batch commit never changes
`messages` — the append that the spec (and the source's own TODO comment)
call for is commented out, so the log stays frozen at its creation value
while work is committed. -/
theorem doSelectJobBatch_messages_frozen (sel : Sel) (j j' : SelectJob) (c : Nat)
    (hstep : doSelectJobBatch sel j = Except.ok (j', c)) :
    j'.messages = j.messages := by
  rcases hq : j.todoQueue with _ | ⟨cas, rest⟩
  · rw [doSelectJobBatch_nil sel j hq] at hstep
    simp only [Except.ok.injEq, Prod.mk.injEq] at hstep
    rw [← hstep.1]
  · rcases he : evalCase sel cas with f | ids
    · rw [doSelectJobBatch_fault sel j cas rest f hq he] at hstep
      simp at hstep
    · rw [doSelectJobBatch_cons sel j cas rest ids hq he] at hstep
      simp only [Except.ok.injEq, Prod.mk.injEq] at hstep
      rw [← hstep.1]
      rfl

/-- Witness for C7: the successful batch taking `jobOne` to `jobOneAfter`
leaves `messages` at the creation value `["Created"]`. -/
theorem doSelectJobBatch_messages_frozen_witness :
    jobOneAfter.messages = jobOne.messages ∧ jobOneAfter.messages = ["Created"] :=
  ⟨doSelectJobBatch_messages_frozen selTrue jobOne jobOneAfter 1 (by decide), by decide⟩


/-- Claim C9: when the Eligibility Evaluator faults on some specimen of the
claimed case, the batch transaction yields the fault itself — the embedding
commits a new job state only through an `Except.ok` result, so an error
result is a rolled-back transaction: no queue removal, no selection growth,
no percentDone change — and `doSelectJobWork` surfaces the same fault to its
caller instead of swallowing it; a retry starts again from the unchanged
record `j`.  `hclk` says only that the wall clock has not run backwards at
the first guard check. -/
theorem doSelectJobWork_fault_propagates (sel : Sel) (j : SelectJob)
    (cas : DatasetCase) (rest : List DatasetCase) (f : String)
    (roughlyMaxSeconds startTime : Int) (clock : Nat → Int)
    (hq : j.todoQueue = cas :: rest)
    (hf : evalCase sel cas = Except.error f)
    (hclk : startTime ≤ clock 0) :
    doSelectJobBatch sel j = Except.error f ∧
    doSelectJobWork sel roughlyMaxSeconds j startTime clock = Except.error f := by
  have hb := doSelectJobBatch_fault sel j cas rest f hq hf
  refine ⟨hb, ?_⟩
  have hg : loopGuard startTime (clock 0) = true := by
    unfold loopGuard differenceInSeconds
    simp only [decide_eq_true_eq]
    omega
  show selectJobLoop sel startTime clock (j.todoQueue.length + 1) j = Except.error f
  rw [hq]
  simp only [List.length_cons]
  rw [selectJobLoop]
  rw [hg]
  simp [hb]

/-- Witness for C9: a single-case job whose evaluator throws on the sole
specimen; both the batch and the whole worker invocation surface the fault. -/
theorem doSelectJobWork_fault_propagates_witness :
    doSelectJobBatch selFault jobOne = Except.error "specimen fault" ∧
    doSelectJobWork selFault 30 jobOne 0 (fun n => (n : Int)) = Except.error "specimen fault" :=
  doSelectJobWork_fault_propagates selFault jobOne casA [] "specimen fault"
    30 0 (fun n => (n : Int)) (by decide) (by decide) (by decide)

/-- Claim C10: a claimed case none of whose specimens is judged selectable
(`evalCase` returns an empty list: evaluator said no everywhere, or the case
has no patients or no specimens) leaves `selectedSpecimens` untouched, yet is
still removed from the queue, counted into percentDone, and counted in the
returned batch size 1 — it is never re-queued. -/
theorem doSelectJobBatch_empty_selection (sel : Sel) (j : SelectJob)
    (cas : DatasetCase) (rest : List DatasetCase)
    (hq : j.todoQueue = cas :: rest)
    (hnd : (j.todoQueue.map DatasetCase.id).Nodup)
    (he : evalCase sel cas = Except.ok []) :
    ∃ j', doSelectJobBatch sel j = Except.ok (j', 1) ∧
      j'.selectedSpecimens = j.selectedSpecimens ∧
      j'.todoQueue = rest ∧
      j'.percentDone =
        Int.fdiv (((j.initialTodoCount : Int) - (rest.length : Int)) * 9999)
          (100 * (j.initialTodoCount : Int)) := by
  refine ⟨batchResult j cas [], doSelectJobBatch_cons sel j cas rest [] hq he, ?_, ?_, ?_⟩
  · simp [batchResult]
  · simp only [batchResult]
    rw [hq]
    exact filter_ne_head_eq cas rest (hq ▸ hnd)
  · simp only [batchResult]
    rw [hq]
    simp only [List.length_cons]
    congr 1
    push_cast
    ring

/-- Witness for C10: `jobOne` under the all-rejecting evaluator `selNone`:
the batch returns count 1, selections stay empty, the case leaves the queue,
and percentDone moves to floor(99.99 * 1 / 1) = 99. -/
theorem doSelectJobBatch_empty_selection_witness :
    ∃ j', doSelectJobBatch selNone jobOne = Except.ok (j', 1) ∧
      j'.selectedSpecimens = jobOne.selectedSpecimens ∧
      j'.todoQueue = [] ∧
      j'.percentDone =
        Int.fdiv (((jobOne.initialTodoCount : Int) - (([] : List DatasetCase).length : Int)) * 9999)
          (100 * (jobOne.initialTodoCount : Int)) :=
  doSelectJobBatch_empty_selection selNone jobOne casA [] (by decide) (by decide) (by decide)

/-- Claim C3 is false of the code (code bug): `doSelectJobWork` never reads
its `roughlyMaxSeconds` parameter — any two budgets give identical behavior —
and its guard `differenceInSeconds(startTime, now) < 10` compares the
(nonpositive) elapsed time written backwards against a hard-coded 10, so it
holds even a million seconds in: with a zero-second budget and 100 seconds
elapsing before every guard check, the two-case job is still fully drained
with 2 cases processed. -/
theorem doSelectJobWork_ignores_time_budget :
    (∀ (sel : Sel) (r1 r2 startTime : Int) (clock : Nat → Int) (j : SelectJob),
        doSelectJobWork sel r1 j startTime clock =
          doSelectJobWork sel r2 j startTime clock) ∧
    loopGuard 0 1000000 = true ∧
    doSelectJobWork selTrue 0 jobTwo 0 (fun n => 100 * ((n : Int) + 1)) =
      Except.ok (jobTwoAfter, 2) := by
  refine ⟨fun _ _ _ _ _ _ => rfl, by decide, by decide⟩


theorem findJob_updateJob (jobs : List (Nat × SelectJob)) (jobId k : Nat)
    (job : SelectJob) (f : SelectJob → SelectJob)
    (h : jobs.find? (fun p => p.1 == jobId) = some (k, job)) :
    (updateJob jobs jobId f).find? (fun p => p.1 == jobId) = some (k, f job) := by
  induction jobs with
  | nil => simp at h
  | cons hd tl ih =>
    by_cases hk : hd.1 = jobId
    · rw [List.find?_cons_of_pos _ (by simp [hk])] at h
      have hhd : hd = (k, job) := by
        injection h
      subst hhd
      unfold updateJob
      simp only [List.map_cons]
      rw [if_pos hk]
      exact List.find?_cons_of_pos _ (by simp only [beq_iff_eq]; exact hk)
    · rw [List.find?_cons_of_neg _ (by simp [hk])] at h
      unfold updateJob
      simp only [List.map_cons]
      rw [if_neg hk]
      rw [List.find?_cons_of_neg _ (by simp [hk])]
      exact ih h

/-- Claim C2 counterexample: a release already holding specimen 1 whose
running job accumulated specimen 2; successful non-cancelled finalize leaves
the release with exactly {2} — not the union {1, 2} — so the pre-existing
selection 1 has been removed, contradicting the claimed additive union. -/
theorem endSelectJob_success_not_additive_union :
    (endSelectJob dbAcc 10 true false 0).releases.map Release.selectedSpecimens = [{2}] ∧
    relPrior.selectedSpecimens ∪ jobAcc.selectedSpecimens = {1, 2} ∧
    (endSelectJob dbAcc 10 true false 0).releases.map Release.selectedSpecimens ≠
      [relPrior.selectedSpecimens ∪ jobAcc.selectedSpecimens] := by
  decide

/-- Claim C2 amended: successful non-cancelled finalize REPLACES the
release's `selectedSpecimens` with the job's accumulated set (a plain `set`
assignment in the source, not a union): afterwards every release matching the
job's `forRelease` holds exactly `job.selectedSpecimens`, and every other
release record is untouched. -/
theorem endSelectJob_success_replaces_release_selection
    (db : Db) (jobId k : Nat) (job : SelectJob) (now : Int)
    (hfind : findJob db jobId = some (k, job)) :
    ∀ r ∈ (endSelectJob db jobId true false now).releases,
      (r.id = job.forRelease → r.selectedSpecimens = job.selectedSpecimens) ∧
      (r.id ≠ job.forRelease → r ∈ db.releases) := by
  have hrel : (endSelectJob db jobId true false now).releases =
      updateRelease db.releases job.forRelease
        (fun r => { r with selectedSpecimens := job.selectedSpecimens }) := by
    unfold endSelectJob
    rw [hfind]
    rfl
  intro r hr
  rw [hrel] at hr
  unfold updateRelease at hr
  rcases List.mem_map.mp hr with ⟨r0, hr0, heq⟩
  by_cases h0 : r0.id = job.forRelease
  · rw [if_pos h0] at heq
    subst heq
    constructor
    · intro _
      rfl
    · intro hne
      exact absurd h0 hne
  · rw [if_neg h0] at heq
    subst heq
    constructor
    · intro h
      exact absurd h h0
    · intro _
      exact hr0

/-- Witness for the amended C2: finalizing job 10 of `dbAcc` successfully
rewrites release 1 to exactly the job's accumulated set {2}. -/
theorem endSelectJob_success_replaces_release_selection_witness :
    relReplaced.selectedSpecimens = jobAcc.selectedSpecimens :=
  ((endSelectJob_success_replaces_release_selection dbAcc 10 10 jobAcc 0
      (by decide)) relReplaced (by decide)).1 (by decide)

/-- Claim C5: starting a select job for a release that already has a running
job fails with the conflict error carrying exactly the ids of the running
job(s) found — the given running job's id among them; the error is thrown
inside the transaction before any write, so nothing is committed and the
existing job is untouched. -/
theorem startSelectJob_conflict (catalog : Nat → List DatasetCase) (db : Db)
    (releaseId : Nat) (now : Int) (newJobId jid : Nat) (jb : SelectJob)
    (hmem : (jid, jb) ∈ db.jobs) (hrun : jb.status = JobStatus.running)
    (hrel : jb.forRelease = releaseId) :
    startSelectJob catalog db releaseId now newJobId =
      Except.error (JobError.conflict
        ((runningJobsForRelease db releaseId).map (fun p => p.1))) ∧
    jid ∈ (runningJobsForRelease db releaseId).map (fun p => p.1) := by
  have hmemf : (jid, jb) ∈ runningJobsForRelease db releaseId := by
    unfold runningJobsForRelease
    refine List.mem_filter.mpr ⟨hmem, ?_⟩
    simp [hrun, hrel]
  have hpos : 0 < (runningJobsForRelease db releaseId).length :=
    List.length_pos_of_mem hmemf
  refine ⟨?_, List.mem_map.mpr ⟨(jid, jb), hmemf, rfl⟩⟩
  simp [startSelectJob, startGenericJob, hpos]

/-- Witness for C5: `dbRun` holds running job 11 for release 1; a second
start attempt errors with conflict id list [11]. -/
theorem startSelectJob_conflict_witness :
    (startSelectJob catalogAB dbRun 1 5 12 =
        Except.error (JobError.conflict
          ((runningJobsForRelease dbRun 1).map (fun p => p.1))) ∧
      11 ∈ (runningJobsForRelease dbRun 1).map (fun p => p.1)) ∧
    (runningJobsForRelease dbRun 1).map (fun p => p.1) = [11] :=
  ⟨startSelectJob_conflict catalogAB dbRun 1 5 12 11 jobOne
      (by decide) (by decide) (by decide),
    by decide⟩

/-- Claim C6: on a release with no running job, `startSelectJob` appends
exactly one new job whose initial state is running, started now,
percentDone 0, messages ["Created"], `initialTodoCount` the size of the
release's full dataset case set, `todoQueue` that whole set, and no selected
specimens. -/
theorem startSelectJob_creates_initial_job (catalog : Nat → List DatasetCase)
    (db : Db) (releaseId : Nat) (now : Int) (newJobId : Nat)
    (hnorun : runningJobsForRelease db releaseId = []) :
    startSelectJob catalog db releaseId now newJobId =
      Except.ok { db with jobs := db.jobs ++ [(newJobId,
        { forRelease := releaseId
          status := JobStatus.running
          started := some now
          ended := none
          requestedCancellation := false
          percentDone := 0
          messages := ["Created"]
          initialTodoCount := (catalog releaseId).length
          todoQueue := catalog releaseId
          selectedSpecimens := ∅ })] } := by
  simp [startSelectJob, startGenericJob, hnorun]

/-- Witness for C6: starting a job on the empty store for release 1 under the
two-case catalog creates the single expected running job record. -/
theorem startSelectJob_creates_initial_job_witness :
    startSelectJob catalogAB dbEmpty 1 7 42 =
      Except.ok { dbEmpty with jobs := dbEmpty.jobs ++ [(42,
        { forRelease := 1
          status := JobStatus.running
          started := some 7
          ended := none
          requestedCancellation := false
          percentDone := 0
          messages := ["Created"]
          initialTodoCount := (catalogAB 1).length
          todoQueue := catalogAB 1
          selectedSpecimens := ∅ })] } :=
  startSelectJob_creates_initial_job catalogAB dbEmpty 1 7 42 (by decide)

/-- Claim C8: finalize with cancellation leaves every release untouched (the
accumulated specimens are not merged), and rewrites only the job record:
status cancelled, percentDone 100, ended set — all other fields, including
the accumulated `selectedSpecimens`, retained for audit. -/
theorem endSelectJob_cancellation (db : Db) (jobId k : Nat) (job : SelectJob)
    (wasSuccessful : Bool) (now : Int)
    (hfind : findJob db jobId = some (k, job)) :
    (endSelectJob db jobId wasSuccessful true now).releases = db.releases ∧
    findJob (endSelectJob db jobId wasSuccessful true now) jobId =
      some (k, { job with
        status := JobStatus.cancelled
        percentDone := 100
        ended := some now }) ∧
    Option.map (fun p => p.2.selectedSpecimens)
        (findJob (endSelectJob db jobId wasSuccessful true now) jobId) =
      some job.selectedSpecimens := by
  have hdb : endSelectJob db jobId wasSuccessful true now =
      { db with jobs := updateJob db.jobs jobId (fun sj =>
          { sj with
              percentDone := 100
              ended := some now
              status := JobStatus.cancelled }) } := by
    unfold endSelectJob
    rw [hfind]
    simp
  have h2 : findJob (endSelectJob db jobId wasSuccessful true now) jobId =
      some (k, { job with
        status := JobStatus.cancelled
        percentDone := 100
        ended := some now }) := by
    rw [hdb]
    show (updateJob db.jobs jobId (fun sj =>
        { sj with
            percentDone := 100
            ended := some now
            status := JobStatus.cancelled })).find? (fun p => p.1 == jobId) = _
    exact findJob_updateJob db.jobs jobId k job _ hfind
  refine ⟨by rw [hdb], h2, by rw [h2]; rfl⟩

/-- Witness for C8: cancelling job 10 of `dbAcc` keeps release 1 at {1} and
marks the job cancelled with its accumulated {2} still on the record. -/
theorem endSelectJob_cancellation_witness :
    (endSelectJob dbAcc 10 false true 0).releases = dbAcc.releases ∧
    findJob (endSelectJob dbAcc 10 false true 0) 10 =
      some (10, { jobAcc with
        status := JobStatus.cancelled
        percentDone := 100
        ended := some 0 }) ∧
    Option.map (fun p => p.2.selectedSpecimens)
        (findJob (endSelectJob dbAcc 10 false true 0) 10) =
      some jobAcc.selectedSpecimens :=
  endSelectJob_cancellation dbAcc 10 10 jobAcc false 0 (by decide)

end Elsa
